import Mathlib

/-!
Verification of the workflow session/lifecycle wrapper
(`libs/agno/agno/workflow/workflow.py`).

The development shallowly embeds the parts of the module the claims are
about: the JSON-like session-state values and their deep merge, the
persisted `WorkflowSession` record, the storage collaborator, and the run
lifecycle (`Workflow.run_workflow`, `load_workflow_session`,
`read_from_storage`, `write_to_storage`, `load_session`).

Python dictionaries are embedded as association lists with string keys
(insertion order preserved, keys unique, matching `dict` semantics).
Fresh `uuid4()` tokens are modelled by an injective supply `uuidOf`
threaded through the lifecycle as a counter.
-/

namespace Agno

/-- JSON-like values held in session state / response contents.
`vdict` is a Python `dict` embedded as an association list. -/
inductive Val where
  | vstr : String → Val
  | vint : Int → Val
  | vdict : List (String × Val) → Val

abbrev Dict := List (String × Val)

/-- Keys of an association list, in order. -/
def keys {α : Type} (d : List (String × α)) : List String :=
  d.map Prod.fst

/-- Boolean membership in a list of strings. -/
def mem? : List String → String → Bool
  | [], _ => false
  | x :: xs, k => (x == k) || mem? xs k

/-- Boolean no-duplicates predicate on a list of strings. -/
def strNodup : List String → Bool
  | [] => true
  | x :: xs => !(mem? xs x) && strNodup xs

/-- Association-list lookup (first occurrence), Python `d.get(k)`. -/
def lk {α : Type} : List (String × α) → String → Option α
  | [], _ => none
  | (k1, v) :: rest, k => if k1 = k then some v else lk rest k

/-- Set a key in an association list: replace the first occurrence,
or append if absent — Python `d[k] = v`. -/
def setKey {α : Type} : List (String × α) → String → α → List (String × α)
  | [], k, v => [(k, v)]
  | (k1, v1) :: rest, k, v =>
      if k1 = k then (k1, v) :: rest else (k1, v1) :: setKey rest k v

mutual
/-- Modelled from the spec: merge one `source` entry `(k, v)` into `target`.
The helper `merge_dictionaries` (from `agno.utils.merge_dict`) is not part of
src/; the spec describes it as a deep merge in which source values win on key
conflicts, recursing when both sides hold a nested mapping. -/
def mergeKey (t : Dict) (k : String) (v : Val) : Dict :=
  match lk t k, v with
  | some (Val.vdict d1), Val.vdict d2 => setKey t k (Val.vdict (mergeList d1 d2))
  | _, _ => setKey t k v
termination_by sizeOf v

/-- Modelled from the spec: `merge_dictionaries(target, source)` — deep-merge
`source` into `target` (source wins on conflicts, recursively for nested
mappings), returning the updated target. -/
def mergeList (t : Dict) : Dict → Dict
  | [] => t
  | (k, v) :: rest => mergeList (mergeKey t k v) rest
termination_by s => sizeOf s
end

/-- How a target value and a source value combine under the deep merge. -/
def cmb : Option Val → Val → Val
  | some (Val.vdict d1), Val.vdict d2 => Val.vdict (mergeList d1 d2)
  | _, v => v

/-- Is the value a mapping? (`isinstance(v, dict)`). -/
def isDict : Val → Bool
  | Val.vdict _ => true
  | _ => false

mutual
/-- Well-formedness of an embedded Python value: every mapping in it has
unique keys (true of every real `dict`). -/
def valWF : Val → Bool
  | Val.vstr _ => true
  | Val.vint _ => true
  | Val.vdict d => strNodup (keys d) && entsWF d
termination_by v => sizeOf v

/-- All values of an association list are well-formed. -/
def entsWF : Dict → Bool
  | [] => true
  | (_, v) :: rest => valWF v && entsWF rest
termination_by d => sizeOf d
end

/-- Well-formedness of an embedded `dict`: unique keys, recursively. -/
def dictWF (d : Dict) : Bool :=
  strNodup (keys d) && entsWF d

/-- The session-state merge step of `load_workflow_session`
(workflow.py lines 387-400): if the persisted value is a non-empty mapping,
deep-merge the live state into it when the live state is non-empty (else
adopt it verbatim) and adopt the result; otherwise leave the live state. -/
def sessionStateMerge (db : Option Val) (live : Dict) : Dict :=
  match db with
  | some (Val.vdict d) =>
      if d.isEmpty then live
      else if live.isEmpty then d
      else mergeList d live
  | _ => live

/-- The fresh-token supply standing in for `uuid4()`: call `n` of the supply
yields a token determined by `n`; distinct calls yield distinct tokens. -/
def uuidOf (n : Nat) : String :=
  String.mk (List.replicate (n + 1) 'u')

/-- External agent collaborator: only its settable `session_id` attribute is
relevant here (spec §6). -/
structure Agent where
  session_id : Option String := none

/-- `agno.run.response.RunResponse`, restricted to the fields this module
reads or writes: the three stamped ids and the `content` payload. -/
structure RunResponse where
  run_id : Option String := none
  session_id : Option String := none
  workflow_id : Option String := none
  content : Option Val := none

/-- `agno.memory.workflow.WorkflowRun`: pairs the run input with its final
response. -/
structure WorkflowRun where
  input : Option Dict := none
  response : RunResponse := {}

/-- `agno.memory.workflow.WorkflowMemory`: an ordered, append-only run log. -/
structure WorkflowMemory where
  runs : List WorkflowRun := []

/-- `WorkflowMemory.add_run`: append a run to the log. -/
def WorkflowMemory.add_run (m : WorkflowMemory) (r : WorkflowRun) : WorkflowMemory :=
  { runs := m.runs ++ [r] }

/-- `agno.storage.session.workflow.WorkflowSession`, restricted to the fields
`load_workflow_session` / `get_workflow_session` exchange. `memory` stands
for the serialized run log (the dict holding the "runs" list);
`workflow_data_name` for `workflow_data["name"]`; the two `session_data`
fields for the corresponding keys of `session_data`. The artifact lists
(images/videos/audio) are opaque collaborators no claim touches and are not
modelled. -/
structure WorkflowSession where
  session_id : Option String := none
  workflow_id : Option String := none
  user_id : Option String := none
  memory : Option (List WorkflowRun) := none
  workflow_data_name : Option String := none
  session_data_session_name : Option String := none
  session_data_session_state : Option Val := none
  extra_data : Option Dict := none

/-- The storage collaborator (spec §6): a session store keyed by session id,
with a settable `mode`. `reads`/`writes` count the `read`/`upsert` calls
actually issued, so that "no storage I/O" claims are observable.
`failUpserts` models a backend whose `upsert` returns `None`. -/
structure Storage where
  mode : String := "agent"
  sessions : List (String × WorkflowSession) := []
  failUpserts : Bool := false
  reads : Nat := 0
  writes : Nat := 0

/-- `storage.read(session_id)`. -/
def Storage.read (st : Storage) (sid : String) : Option WorkflowSession × Storage :=
  (lk st.sessions sid, { st with reads := st.reads + 1 })

/-- `storage.upsert(session)`: store the record under its session id and
return it (or `None` when the backend fails). -/
def Storage.upsert (st : Storage) (s : WorkflowSession) : Option WorkflowSession × Storage :=
  if st.failUpserts then
    (none, { st with writes := st.writes + 1 })
  else
    (some s, { st with writes := st.writes + 1,
                       sessions := setKey st.sessions (s.session_id.getD "") s })

/-- The mutable state of a `Workflow` instance (workflow.py lines 24-128).
`agents` holds the agent-typed values the subclass carries (the class-level
`Agent` attributes scanned by `__post_init__`). Debug/monitoring/telemetry
flags only drive logging and are not modelled. -/
structure Workflow where
  name : Option String := none
  workflow_id : Option String := none
  user_id : Option String := none
  session_id : Option String := none
  session_name : Option String := none
  session_state : Dict := []
  memory : Option WorkflowMemory := none
  storage : Option Storage := none
  extra_data : Option Dict := none
  run_id : Option String := none
  run_input : Option Dict := none
  run_response : Option RunResponse := none
  workflow_session : Option WorkflowSession := none
  agents : List Agent := []

/-- `Workflow.__post_init__` (lines 130-133): every `Agent` held as a class
attribute gets its `session_id` set to the construction-time session id. -/
def Workflow.post_init (w : Workflow) : Workflow :=
  { w with agents := w.agents.map (fun _ => { session_id := w.session_id }) }

/-- `if cur is None and db is not None: cur = db` — fill a field from the
persisted record only when currently unset. -/
def fill {α : Type} : Option α → Option α → Option α
  | none, some x => some x
  | cur, _ => cur

/-- `Workflow.load_workflow_session` (lines 364-443): fill
workflow/user/session ids and names when unset, run the session-state merge,
deep-merge `extra_data` (persisted record as target, live values winning),
and reconstruct the memory run log from the persisted "runs" list. -/
def load_workflow_session (w : Workflow) (s : WorkflowSession) : Workflow :=
  { w with
    workflow_id := fill w.workflow_id s.workflow_id,
    user_id := fill w.user_id s.user_id,
    session_id := fill w.session_id s.session_id,
    name := fill w.name s.workflow_data_name,
    session_name := fill w.session_name s.session_data_session_name,
    session_state := sessionStateMerge s.session_data_session_state w.session_state,
    extra_data :=
      match s.extra_data, w.extra_data with
      | some ed, some live => some (mergeList ed live)
      | some ed, none => some ed
      | none, _ => w.extra_data,
    memory :=
      match s.memory with
      | some rs => some { runs := rs }
      | none => w.memory }

/-- `Workflow.get_workflow_session` (lines 349-362): serialize current state
to a persistable record (`session_state` is included only when non-empty,
per `get_session_data`, lines 335-347). -/
def get_workflow_session (w : Workflow) : WorkflowSession :=
  { session_id := w.session_id,
    workflow_id := w.workflow_id,
    user_id := w.user_id,
    memory := w.memory.map (fun m => m.runs),
    workflow_data_name := w.name,
    session_data_session_name := w.session_name,
    session_data_session_state :=
      if w.session_state.isEmpty then none else some (Val.vdict w.session_state),
    extra_data := w.extra_data }

/-- `Workflow.read_from_storage` (lines 445-455): no-op unless both storage
and a session id are set; otherwise read the record by session id into the
cache (possibly `None`) and, if found, load it. Returns the cached record. -/
def read_from_storage (w : Workflow) : Option WorkflowSession × Workflow :=
  match w.storage, w.session_id with
  | some st, some sid =>
      match st.read sid with
      | (some s, st1) =>
          (some s, load_workflow_session
            { w with storage := some st1, workflow_session := some s } s)
      | (none, st1) =>
          (none, { w with storage := some st1, workflow_session := none })
  | _, _ => (w.workflow_session, w)

/-- `Workflow.write_to_storage` (lines 457-465): no-op unless storage is set;
otherwise upsert the serialized record and cache the result. -/
def write_to_storage (w : Workflow) : Option WorkflowSession × Workflow :=
  match w.storage with
  | some st =>
      match st.upsert (get_workflow_session w) with
      | (res, st1) => (res, { w with storage := some st1, workflow_session := res })
  | none => (w.workflow_session, w)

/-- The cache fast-path test of `load_session` (lines 476-478): a record is
cached, `force` is off, a session id is set and the cached record agrees. -/
def fastPath (w : Workflow) (force : Bool) : Bool :=
  match w.workflow_session, w.session_id with
  | some ws, some sid => !force && (ws.session_id == some sid)
  | _, _ => false

/-- `Workflow.load_session` (lines 467-496): return the cached session id on
the fast path; otherwise, when storage is set, read, create on miss, and
raise when the record is still absent after the write. The returned
`Workflow` is the mutated `self` (also on the raising path). -/
def load_session (w : Workflow) (force : Bool) :
    Except String (Option String) × Workflow :=
  if fastPath w force then
    (Except.ok (w.workflow_session.bind (fun ws => ws.session_id)), w)
  else
    match w.storage with
    | none => (Except.ok w.session_id, w)
    | some _ =>
        let w1 := (read_from_storage w).2
        match w1.workflow_session with
        | some _ => (Except.ok w1.session_id, w1)
        | none =>
            let w2 := (write_to_storage w1).2
            match w2.workflow_session with
            | none =>
                (Except.error "Failed to create new WorkflowSession in storage", w2)
            | some _ => (Except.ok w2.session_id, w2)

/-- `Workflow.new_session` (lines 498-507): clear the cached record, generate
a fresh session id from the supply, and force-reload. -/
def new_session (w : Workflow) (g : Nat) :
    (Except String (Option String) × Workflow) × Nat :=
  (load_session { w with workflow_session := none, session_id := some (uuidOf g) } true,
   g + 1)

/-- `Workflow.set_storage_mode` (lines 222-227): force the backend mode to
"workflow" (a conflicting previous mode only triggers a warning). -/
def set_storage_mode (w : Workflow) : Workflow :=
  match w.storage with
  | some st => { w with storage := some { st with mode := "workflow" } }
  | none => w

/-- `Workflow.set_workflow_id` (lines 229-233): generate the id once, when
unset. -/
def set_workflow_id (w : Workflow) (g : Nat) : Workflow × Nat :=
  match w.workflow_id with
  | none => ({ w with workflow_id := some (uuidOf g) }, g + 1)
  | some _ => (w, g)

/-- `Workflow.set_session_id` (lines 235-239): generate the id once, when
unset. -/
def set_session_id (w : Workflow) (g : Nat) : Workflow × Nat :=
  match w.session_id with
  | none => ({ w with session_id := some (uuidOf g) }, g + 1)
  | some _ => (w, g)

/-- `Workflow.initialize_memory` (lines 260-262): lazily construct a default
memory collaborator. -/
def initialize_memory (w : Workflow) : Workflow :=
  match w.memory with
  | none => { w with memory := some {} }
  | some _ => w

/-- `Workflow.update_agent_session_ids` (lines 316-323). The source iterates
`dataclasses.fields(self)` and tests `isinstance(field_type, Agent)` where
`field_type = f.type` is the field's type annotation — a string under
`from __future__ import annotations` (line 1), and in any case never an
`Agent` instance — so the loop body never executes and no agent is updated.
The faithful embedding is the identity. -/
def update_agent_session_ids (w : Workflow) : Workflow :=
  w

/-- Stamp a response with the current run/session/workflow ids
(lines 183-185 and 204-206). -/
def stampResp (w : Workflow) (r : RunResponse) : RunResponse :=
  { r with run_id := w.run_id, session_id := w.session_id, workflow_id := w.workflow_id }

/-- An item yielded by a subclass generator: a `RunResponse`, or anything
else (which only draws a warning). -/
inductive Item where
  | resp (r : RunResponse)
  | notResp (tag : Nat)

/-- Per-item action of the streaming loop on the yielded item itself:
`RunResponse` items are stamped, other items are forwarded unchanged. -/
def stampItem (w : Workflow) : Item → Item
  | Item.resp r => Item.resp (stampResp w r)
  | Item.notResp t => Item.notResp t

/-- The textual content of a response, when `content` is a string
(`item.content is not None and isinstance(item.content, str)`). -/
def contentStr : Option Val → Option String
  | some (Val.vstr s) => some s
  | _ => none

/-- In-order concatenation of the string contents of the `RunResponse`
items of a stream. -/
def strContents : List Item → String
  | [] => ""
  | Item.resp r :: rest => (contentStr r.content).getD "" ++ strContents rest
  | Item.notResp _ :: rest => strContents rest

/-- What the subclass run routine does when invoked: stream a lazy sequence,
return a single response, return something else, or raise. -/
inductive SubResult where
  | stream (items : List Item)
  | single (r : RunResponse)
  | otherValue
  | raises (msg : String)

/-- The log messages the lifecycle emits that the claims observe. -/
inductive LogMsg where
  | errNotImplemented
  | errRunFailed (msg : String)
  | warnYieldType
  | warnReturnType

/-- What invoking the public entry point produces for the caller.
`noImpl` and `nonePy` are both a Python `None` return: the former from the
un-overridden `Workflow.run`, the latter from the unexpected-result branch. -/
inductive RunOutcome where
  | noImpl
  | raised (msg : String)
  | streamed (items : List Item)
  | singleResp (r : RunResponse)
  | nonePy

/-- Result of one invocation of the entry point: the value produced, the
mutated instance, the advanced token supply, and the log trace. -/
structure RunResult where
  outcome : RunOutcome
  wf : Workflow
  gen : Nat
  logs : List LogMsg

/-- The streaming loop body (lines 177-192): stamp each `RunResponse` item,
accumulate its textual content, warn on anything else, and forward every
item downstream in order. Returns the emitted items, the accumulated
content, and the warnings. -/
def streamLoop (w : Workflow) : List Item → List Item × String × List LogMsg
  | [] => ([], "", [])
  | Item.resp r :: rest =>
      match streamLoop w rest with
      | (es, acc, ls) =>
          (Item.resp (stampResp w r) :: es, (contentStr r.content).getD "" ++ acc, ls)
  | Item.notResp t :: rest =>
      match streamLoop w rest with
      | (es, acc, ls) => (Item.notResp t :: es, acc, LogMsg.warnYieldType :: ls)

/-- The generator path of `run_workflow` (lines 173-200), fully consumed:
the outer response content starts at `""` and accumulates the yielded string
contents; after exhaustion a `WorkflowRun(run_input, run_response)` is
appended to memory and the session is written to storage. -/
def runStream (w : Workflow) (items : List Item) :
    RunOutcome × Workflow × List LogMsg :=
  match streamLoop w items with
  | (emitted, acc, ls) =>
      let rr := { w.run_response.getD {} with content := some (Val.vstr acc) }
      let w1 := { w with
        run_response := some rr,
        memory := some ((w.memory.getD {}).add_run { input := w.run_input, response := rr }) }
      match write_to_storage w1 with
      | (_, w2) => (RunOutcome.streamed emitted, w2, ls)

/-- The single-response path of `run_workflow` (lines 202-217): stamp the
result, copy its content into the outer response only when textual, append a
`WorkflowRun(run_input, run_response)` to memory, write, and return the
stamped result. -/
def runSingle (w : Workflow) (r : RunResponse) :
    RunOutcome × Workflow × List LogMsg :=
  let rr0 := w.run_response.getD {}
  let rr :=
    match contentStr r.content with
    | some s => { rr0 with content := some (Val.vstr s) }
    | none => rr0
  let w1 := { w with
    run_response := some rr,
    memory := some ((w.memory.getD {}).add_run { input := w.run_input, response := rr }) }
  match write_to_storage w1 with
  | (_, w2) => (RunOutcome.singleResp (stampResp w r), w2, [])

/-- The state-preparation part of `run_workflow` (lines 143-155): mode/ids/
memory setup, fresh `run_id`, capture of `run_input`, and the fresh stamped
outer `RunResponse` (content `None`). `set_debug` only touches log levels
and is not modelled. -/
def preReadState (w : Workflow) (g : Nat) (kwargs : Dict) : Workflow × Nat :=
  let w1 := set_storage_mode w
  match set_workflow_id w1 g with
  | (w2, g1) =>
    match set_session_id w2 g1 with
    | (w3, g2) =>
      let w4 := initialize_memory w3
      let rid := uuidOf g2
      ({ w4 with
          run_id := some rid,
          run_input := some kwargs,
          run_response := some { run_id := some rid, session_id := w4.session_id,
                                 workflow_id := w4.workflow_id } }, g2 + 1)

/-- All bookkeeping before the subclass routine runs: the state preparation
above followed by the storage read (with session merge, lines 157-158) and
the (vacuous) agent session-id update (lines 160-161). -/
def preRun (w : Workflow) (g : Nat) (kwargs : Dict) : Workflow × Nat :=
  match preReadState w g kwargs with
  | (w5, g3) =>
      match read_from_storage w5 with
      | (_, w6) => (update_agent_session_ids w6, g3)

/-- `Workflow.run_workflow` (lines 139-220): setup, invoke the subclass
routine, then classify its result (generator / single response / anything
else) or propagate its exception after logging. -/
def run_workflow (w : Workflow) (g : Nat) (kwargs : Dict) (sub : SubResult) :
    RunResult :=
  match preRun w g kwargs with
  | (w1, g1) =>
    match sub with
    | SubResult.raises msg =>
        { outcome := RunOutcome.raised msg, wf := w1, gen := g1,
          logs := [LogMsg.errRunFailed msg] }
    | SubResult.stream items =>
        match runStream w1 items with
        | (o, w2, ls) => { outcome := o, wf := w2, gen := g1, logs := ls }
    | SubResult.single r =>
        match runSingle w1 r with
        | (o, w2, ls) => { outcome := o, wf := w2, gen := g1, logs := ls }
    | SubResult.otherValue =>
        { outcome := RunOutcome.nonePy, wf := w1, gen := g1,
          logs := [LogMsg.warnReturnType] }

/-- The public entry point as rebound by `update_run_method`
(lines 264-314): when the subclass overrides `run`, calling it dispatches to
`run_workflow`; otherwise the base `Workflow.run` (lines 135-137) runs — it
logs an error that no implementation exists and returns `None`, touching
nothing. -/
def runEntry (w : Workflow) (g : Nat) (kwargs : Dict) (overridden : Bool)
    (sub : SubResult) : RunResult :=
  if overridden then run_workflow w g kwargs sub
  else { outcome := RunOutcome.noImpl, wf := w, gen := g,
         logs := [LogMsg.errNotImplemented] }

/-! ### Lemmas: the fresh-token supply -/

theorem uuidOf_inj {m n : Nat} (h : uuidOf m = uuidOf n) : m = n := by
  have hdata : List.replicate (m + 1) 'u' = List.replicate (n + 1) 'u' := by
    simpa [uuidOf] using congrArg String.data h
  have hlen := congrArg List.length hdata
  simpa using hlen

/-! ### Lemmas: association lists -/

theorem mem?_append (a b : List String) (x : String) :
    mem? (a ++ b) x = (mem? a x || mem? b x) := by
  induction a with
  | nil => simp [mem?]
  | cons y ys ih => simp [mem?, ih, Bool.or_assoc]

theorem mem?_iff_mem (l : List String) (x : String) :
    mem? l x = true ↔ x ∈ l := by
  induction l with
  | nil => simp [mem?]
  | cons y ys ih =>
      simp [mem?, ih, Bool.or_eq_true, beq_iff_eq, List.mem_cons]
      constructor
      · rintro (h | h)
        · exact Or.inl h.symm
        · exact Or.inr h
      · rintro (h | h)
        · exact Or.inl h.symm
        · exact Or.inr h

theorem lk_eq_none_iff {α : Type} (d : List (String × α)) (k : String) :
    lk d k = none ↔ mem? (keys d) k = false := by
  induction d with
  | nil => simp [lk, keys, mem?]
  | cons p rest ih =>
      obtain ⟨k1, v⟩ := p
      by_cases h : k1 = k
      · subst h
        simp [lk, keys, mem?]
      · simp [lk, keys, mem?, h, ih, beq_iff_eq]

theorem lk_some_mem? {α : Type} {d : List (String × α)} {k : String} {v : α}
    (h : lk d k = some v) : mem? (keys d) k = true := by
  by_contra hc
  have hf : mem? (keys d) k = false := by
    cases hm : mem? (keys d) k
    · rfl
    · exact absurd hm hc
  rw [(lk_eq_none_iff d k).mpr hf] at h
  exact Option.noConfusion h

theorem sizeOf_lk {d : Dict} {k : String} {v : Val}
    (h : lk d k = some v) : sizeOf v < sizeOf d := by
  induction d with
  | nil => simp [lk] at h
  | cons p rest ih =>
      obtain ⟨k1, v1⟩ := p
      by_cases hk : k1 = k
      · rw [lk, if_pos hk] at h
        obtain rfl : v1 = v := Option.some.inj h
        simp only [List.cons.sizeOf_spec, Prod.mk.sizeOf_spec]
        omega
      · rw [lk, if_neg hk] at h
        have := ih h
        simp only [List.cons.sizeOf_spec, Prod.mk.sizeOf_spec]
        omega

theorem valWF_of_lk {d : Dict} {k : String} {v : Val}
    (hd : entsWF d = true) (h : lk d k = some v) : valWF v = true := by
  induction d with
  | nil => simp [lk] at h
  | cons p rest ih =>
      obtain ⟨k1, v1⟩ := p
      rw [entsWF, Bool.and_eq_true] at hd
      by_cases hk : k1 = k
      · rw [lk, if_pos hk] at h
        obtain rfl : v1 = v := Option.some.inj h
        exact hd.1
      · rw [lk, if_neg hk] at h
        exact ih hd.2 h

theorem lk_setKey_self {α : Type} (t : List (String × α)) (k : String) (v : α) :
    lk (setKey t k v) k = some v := by
  induction t with
  | nil => simp [setKey, lk]
  | cons p rest ih =>
      obtain ⟨k1, v1⟩ := p
      by_cases h : k1 = k
      · simp [setKey, h, lk]
      · simp [setKey, h, lk, ih]

theorem keys_nil {α : Type} : keys ([] : List (String × α)) = [] := rfl

theorem keys_cons {α : Type} (k : String) (v : α) (t : List (String × α)) :
    keys ((k, v) :: t) = k :: keys t := rfl

theorem lk_setKey_ne {α : Type} (t : List (String × α)) {k k1 : String} (v : α)
    (h : k1 ≠ k) : lk (setKey t k v) k1 = lk t k1 := by
  induction t with
  | nil => simp [setKey, lk, Ne.symm h]
  | cons p rest ih =>
      obtain ⟨k2, v2⟩ := p
      by_cases h2 : k2 = k
      · subst h2
        simp [setKey, lk, Ne.symm h]
      · simp [setKey, h2, lk, ih]

theorem keys_setKey_mem {α : Type} (t : List (String × α)) (k : String) (v : α)
    (h : mem? (keys t) k = true) : keys (setKey t k v) = keys t := by
  induction t with
  | nil => simp [keys_nil, mem?] at h
  | cons p rest ih =>
      obtain ⟨k1, v1⟩ := p
      by_cases hk : k1 = k
      · simp [setKey, hk, keys_cons]
      · rw [keys_cons, mem?] at h
        have hne : (k1 == k) = false := by simp [beq_iff_eq, hk]
        rw [hne, Bool.false_or] at h
        simp [setKey, hk, keys_cons, ih h]

theorem keys_setKey_not_mem {α : Type} (t : List (String × α)) (k : String) (v : α)
    (h : mem? (keys t) k = false) : keys (setKey t k v) = keys t ++ [k] := by
  induction t with
  | nil => simp [setKey, keys_cons, keys_nil]
  | cons p rest ih =>
      obtain ⟨k1, v1⟩ := p
      rw [keys_cons, mem?, Bool.or_eq_false_iff] at h
      have hk : k1 ≠ k := by simpa [beq_iff_eq] using h.1
      simp [setKey, hk, keys_cons, ih h.2]

/-! ### Lemmas: the deep merge -/

theorem cmb_none (v : Val) : cmb none v = v := by
  cases v <;> rfl

theorem cmb_dict (d1 d2 : Dict) :
    cmb (some (Val.vdict d1)) (Val.vdict d2) = Val.vdict (mergeList d1 d2) := rfl

theorem cmb_not_dict_tgt {u : Val} (h : isDict u = false) (v : Val) :
    cmb (some u) v = v := by
  cases u <;> cases v <;> first
    | rfl
    | simp [isDict] at h

theorem cmb_not_dict_src (o : Option Val) {v : Val} (h : isDict v = false) :
    cmb o v = v := by
  match o with
  | none => exact cmb_none v
  | some u => cases u <;> cases v <;> first
      | rfl
      | simp [isDict] at h

theorem mergeList_nil (t : Dict) : mergeList t [] = t := by
  rw [mergeList]

theorem mergeList_cons (t : Dict) (k : String) (v : Val) (rest : Dict) :
    mergeList t ((k, v) :: rest) = mergeList (mergeKey t k v) rest := by
  rw [mergeList]

theorem mergeKey_eq (t : Dict) (k : String) (v : Val) :
    mergeKey t k v = setKey t k (cmb (lk t k) v) := by
  rw [mergeKey.eq_def]
  cases hlk : lk t k with
  | none => cases v <;> rfl
  | some u =>
      cases u with
      | vstr s => cases v <;> rfl
      | vint n => cases v <;> rfl
      | vdict d1 => cases v <;> rfl

theorem lk_mergeKey_self (t : Dict) (k : String) (v : Val) :
    lk (mergeKey t k v) k = some (cmb (lk t k) v) := by
  rw [mergeKey_eq]
  exact lk_setKey_self t k (cmb (lk t k) v)

theorem lk_mergeKey_ne (t : Dict) {k k1 : String} (v : Val) (h : k1 ≠ k) :
    lk (mergeKey t k v) k1 = lk t k1 := by
  rw [mergeKey_eq]
  exact lk_setKey_ne t (cmb (lk t k) v) h

theorem keys_mergeKey_mem (t : Dict) (k : String) (v : Val)
    (h : mem? (keys t) k = true) : keys (mergeKey t k v) = keys t := by
  rw [mergeKey_eq]
  exact keys_setKey_mem t k (cmb (lk t k) v) h

theorem keys_mergeKey_not_mem (t : Dict) (k : String) (v : Val)
    (h : mem? (keys t) k = false) : keys (mergeKey t k v) = keys t ++ [k] := by
  rw [mergeKey_eq]
  exact keys_setKey_not_mem t k (cmb (lk t k) v) h

theorem lk_mergeList_none :
    ∀ s : Dict, strNodup (keys s) = true →
      ∀ (t : Dict) (k : String), lk s k = none → lk (mergeList t s) k = lk t k := by
  intro s
  induction s with
  | nil =>
      intro _ t k _
      rw [mergeList_nil]
  | cons p rest ih =>
      obtain ⟨k0, v0⟩ := p
      intro hs t k h
      rw [keys_cons, strNodup, Bool.and_eq_true] at hs
      rw [lk] at h
      by_cases hk : k0 = k
      · rw [if_pos hk] at h
        exact Option.noConfusion h
      · rw [if_neg hk] at h
        rw [mergeList_cons, ih hs.2 (mergeKey t k0 v0) k h]
        exact lk_mergeKey_ne t v0 (fun he => hk he.symm)

theorem lk_mergeList_some :
    ∀ s : Dict, strNodup (keys s) = true →
      ∀ (t : Dict) (k : String) (v : Val), lk s k = some v →
        lk (mergeList t s) k = some (cmb (lk t k) v) := by
  intro s
  induction s with
  | nil =>
      intro _ t k v h
      simp [lk] at h
  | cons p rest ih =>
      obtain ⟨k0, v0⟩ := p
      intro hs t k v h
      rw [keys_cons, strNodup, Bool.and_eq_true, Bool.not_eq_true'] at hs
      rw [lk] at h
      by_cases hk : k0 = k
      · rw [if_pos hk] at h
        obtain rfl : v0 = v := Option.some.inj h
        subst hk
        have hrest : lk rest k0 = none :=
          (lk_eq_none_iff rest k0).mpr hs.1
        rw [mergeList_cons, lk_mergeList_none rest hs.2 (mergeKey t k0 v0) k0 hrest]
        exact lk_mergeKey_self t k0 v0
      · rw [if_neg hk] at h
        rw [mergeList_cons, ih hs.2 (mergeKey t k0 v0) k v h]
        rw [lk_mergeKey_ne t v0 (fun he => hk he.symm)]

theorem filterCongrMem {p q : String → Bool} :
    ∀ l : List String, (∀ x, x ∈ l → p x = q x) → l.filter p = l.filter q := by
  intro l
  induction l with
  | nil => intro _; rfl
  | cons x xs ih =>
      intro h
      rw [List.filter_cons, List.filter_cons, h x (List.mem_cons_self x xs),
        ih (fun y hy => h y (List.mem_cons_of_mem x hy))]

theorem filter_not_mem_sub (L : List String) :
    ∀ l : List String, (∀ x, mem? l x = true → mem? L x = true) →
      l.filter (fun x => !(mem? L x)) = [] := by
  intro l
  induction l with
  | nil => intro _; rfl
  | cons x xs ih =>
      intro h
      have hx : mem? L x = true := by
        apply h
        simp [mem?]
      rw [List.filter_cons]
      simp only [hx, Bool.not_true, if_false]
      apply ih
      intro y hy
      apply h
      rw [mem?, hy, Bool.or_true]

theorem filter_idem (p : String → Bool) :
    ∀ l : List String, (l.filter p).filter p = l.filter p := by
  intro l
  induction l with
  | nil => rfl
  | cons x xs ih =>
      rw [List.filter_cons]
      by_cases hp : p x = true
      · rw [if_pos hp, List.filter_cons, if_pos hp, ih]
      · rw [if_neg hp, ih]

theorem keys_mergeList :
    ∀ s : Dict, strNodup (keys s) = true → ∀ t : Dict,
      keys (mergeList t s) = keys t ++ (keys s).filter (fun x => !(mem? (keys t) x)) := by
  intro s
  induction s with
  | nil =>
      intro _ t
      rw [mergeList_nil, keys_nil]
      simp
  | cons p rest ih =>
      obtain ⟨k0, v0⟩ := p
      intro hs t
      rw [keys_cons, strNodup, Bool.and_eq_true, Bool.not_eq_true'] at hs
      rw [mergeList_cons, ih hs.2 (mergeKey t k0 v0), keys_cons]
      by_cases hm : mem? (keys t) k0 = true
      · rw [keys_mergeKey_mem t k0 v0 hm]
        rw [List.filter_cons]
        simp only [hm, Bool.not_true, Bool.false_eq_true, if_false]
      · have hm' : mem? (keys t) k0 = false := by
          cases hmm : mem? (keys t) k0
          · rfl
          · exact absurd hmm hm
        rw [keys_mergeKey_not_mem t k0 v0 hm']
        rw [List.filter_cons]
        simp only [hm', Bool.not_false, if_true]
        rw [List.append_assoc, List.singleton_append]
        congr 2
        apply filterCongrMem
        intro x hx
        have hxk : (k0 == x) = false := by
          by_cases he : k0 = x
          · exfalso
            have h1 := hs.1
            rw [he] at h1
            have h2 := (mem?_iff_mem (keys rest) x).mpr hx
            rw [h2] at h1
            exact Bool.noConfusion h1
          · simp [he]
        rw [mem?_append]
        simp [mem?, hxk]

theorem strNodup_append :
    ∀ a b : List String, strNodup a = true → strNodup b = true →
      (∀ x, mem? b x = true → mem? a x = false) → strNodup (a ++ b) = true := by
  intro a
  induction a with
  | nil => intro b _ hb _; simpa using hb
  | cons x xs ih =>
      intro b ha hb hd
      rw [strNodup, Bool.and_eq_true, Bool.not_eq_true'] at ha
      rw [List.cons_append, strNodup, Bool.and_eq_true, Bool.not_eq_true']
      constructor
      · rw [mem?_append, ha.1, Bool.false_or]
        cases hbx : mem? b x
        · rfl
        · have := hd x hbx
          rw [mem?] at this
          simp at this
      · apply ih b ha.2 hb
        intro y hy
        have := hd y hy
        rw [mem?, Bool.or_eq_false_iff] at this
        exact this.2

theorem mem?_filter_false (p : String → Bool) :
    ∀ l : List String, ∀ x, mem? l x = false → mem? (l.filter p) x = false := by
  intro l
  induction l with
  | nil => intro x _; rfl
  | cons y ys ih =>
      intro x h
      rw [mem?, Bool.or_eq_false_iff] at h
      rw [List.filter_cons]
      by_cases hp : p y = true
      · rw [if_pos hp, mem?, h.1, Bool.false_or]
        exact ih x h.2
      · rw [if_neg hp]
        exact ih x h.2

theorem strNodup_filter (p : String → Bool) :
    ∀ l : List String, strNodup l = true → strNodup (l.filter p) = true := by
  intro l
  induction l with
  | nil => intro _; rfl
  | cons x xs ih =>
      intro h
      rw [strNodup, Bool.and_eq_true, Bool.not_eq_true'] at h
      rw [List.filter_cons]
      by_cases hp : p x = true
      · rw [if_pos hp, strNodup, Bool.and_eq_true, Bool.not_eq_true']
        exact ⟨mem?_filter_false p xs x h.1, ih h.2⟩
      · rw [if_neg hp]
        exact ih h.2

theorem mem?_filter_imp (p : String → Bool) :
    ∀ l : List String, ∀ x, mem? (l.filter p) x = true →
      mem? l x = true ∧ p x = true := by
  intro l
  induction l with
  | nil => intro x h; simp [List.filter_nil, mem?] at h
  | cons y ys ih =>
      intro x h
      rw [List.filter_cons] at h
      by_cases hp : p y = true
      · rw [if_pos hp, mem?, Bool.or_eq_true] at h
        rcases h with h | h
        · have hyx : y = x := by simpa [beq_iff_eq] using h
          subst hyx
          exact ⟨by rw [mem?]; simp, hp⟩
        · obtain ⟨h1, h2⟩ := ih x h
          refine ⟨?_, h2⟩
          rw [mem?, h1, Bool.or_true]
      · rw [if_neg hp] at h
        obtain ⟨h1, h2⟩ := ih x h
        refine ⟨?_, h2⟩
        rw [mem?, h1, Bool.or_true]

theorem alist_ext {α : Type} :
    ∀ a b : List (String × α), strNodup (keys a) = true → keys a = keys b →
      (∀ k, lk a k = lk b k) → a = b := by
  intro a
  induction a with
  | nil =>
      intro b _ hk _
      cases b with
      | nil => rfl
      | cons q rest =>
          obtain ⟨k2, v2⟩ := q
          rw [keys_nil, keys_cons] at hk
          exact List.noConfusion hk
  | cons p ra ih =>
      obtain ⟨k, v⟩ := p
      intro b hnd hk hl
      cases b with
      | nil =>
          rw [keys_nil, keys_cons] at hk
          exact List.noConfusion hk
      | cons q rb =>
          obtain ⟨k2, v2⟩ := q
          rw [keys_cons, keys_cons] at hk
          obtain ⟨hkk, hkr⟩ : k = k2 ∧ keys ra = keys rb := List.cons.inj hk
          subst hkk
          rw [keys_cons, strNodup, Bool.and_eq_true, Bool.not_eq_true'] at hnd
          have hv : v = v2 := by
            have := hl k
            rw [lk, lk, if_pos rfl, if_pos rfl] at this
            exact Option.some.inj this
          subst hv
          congr 1
          apply ih rb hnd.2 hkr
          intro k1
          by_cases hk1 : k = k1
          · subst hk1
            have h1 : lk ra k = none := (lk_eq_none_iff ra k).mpr hnd.1
            have h2 : lk rb k = none := by
              apply (lk_eq_none_iff rb k).mpr
              rw [← hkr]
              exact hnd.1
            rw [h1, h2]
          · have := hl k1
            rw [lk, lk, if_neg hk1, if_neg hk1] at this
            exact this

theorem dictWF_parts {d : Dict} (h : dictWF d = true) :
    strNodup (keys d) = true ∧ entsWF d = true := by
  rw [dictWF, Bool.and_eq_true] at h
  exact h

theorem valWF_vdict (d : Dict) : valWF (Val.vdict d) = dictWF d := by
  rw [valWF.eq_def, dictWF]

theorem mergeList_self_aux :
    ∀ n : Nat, ∀ d : Dict, sizeOf d < n → dictWF d = true → mergeList d d = d := by
  intro n
  induction n with
  | zero => intro d h _; exact absurd h (Nat.not_lt_zero _)
  | succ n ih =>
      intro d hsz hwf
      obtain ⟨hnd, hents⟩ := dictWF_parts hwf
      have hself : (keys d).filter (fun x => !(mem? (keys d) x)) = [] :=
        filter_not_mem_sub (keys d) (keys d) (fun _ hx => hx)
      have hkeys : keys (mergeList d d) = keys d := by
        rw [keys_mergeList d hnd d, hself, List.append_nil]
      apply alist_ext (mergeList d d) d
      · rw [hkeys]; exact hnd
      · exact hkeys
      · intro k
        cases hlk : lk d k with
        | none => rw [lk_mergeList_none d hnd d k hlk, hlk]
        | some v =>
            rw [lk_mergeList_some d hnd d k v hlk, hlk]
            congr 1
            cases v with
            | vstr s => rfl
            | vint m => rfl
            | vdict dv =>
                rw [cmb_dict]
                congr 1
                apply ih dv
                · have h1 := sizeOf_lk hlk
                  have h2 : sizeOf (Val.vdict dv) = 1 + sizeOf dv := by
                    simp
                  omega
                · have hv := valWF_of_lk hents hlk
                  rw [valWF_vdict] at hv
                  exact hv

theorem mergeList_self (d : Dict) (h : dictWF d = true) : mergeList d d = d :=
  mergeList_self_aux (sizeOf d + 1) d (Nat.lt_succ_self _) h

theorem mergeList_idem_aux :
    ∀ n : Nat, ∀ t s : Dict, sizeOf t + sizeOf s < n →
      dictWF t = true → dictWF s = true →
      mergeList t (mergeList t s) = mergeList t s := by
  intro n
  induction n with
  | zero => intro t s h _ _; exact absurd h (Nat.not_lt_zero _)
  | succ n ih =>
      intro t s hsz hwt hws
      obtain ⟨hndt, hentt⟩ := dictWF_parts hwt
      obtain ⟨hnds, hents⟩ := dictWF_parts hws
      have hkm : keys (mergeList t s)
          = keys t ++ (keys s).filter (fun x => !(mem? (keys t) x)) :=
        keys_mergeList s hnds t
      have hnm : strNodup (keys (mergeList t s)) = true := by
        rw [hkm]
        apply strNodup_append _ _ hndt (strNodup_filter _ _ hnds)
        intro x hx
        have := (mem?_filter_imp _ (keys s) x hx).2
        rw [Bool.not_eq_true'] at this
        exact this
      have hka : keys (mergeList t (mergeList t s)) = keys (mergeList t s) := by
        rw [keys_mergeList (mergeList t s) hnm t, hkm, List.filter_append,
          filter_not_mem_sub (keys t) (keys t) (fun _ hx => hx), List.nil_append,
          filter_idem]
      apply alist_ext (mergeList t (mergeList t s)) (mergeList t s)
      · rw [hka]; exact hnm
      · exact hka
      · intro k
        cases hm : lk (mergeList t s) k with
        | none =>
            rw [lk_mergeList_none (mergeList t s) hnm t k hm]
            cases hs : lk s k with
            | none =>
                rw [← lk_mergeList_none s hnds t k hs]
                exact hm
            | some v =>
                rw [lk_mergeList_some s hnds t k v hs] at hm
                exact Option.noConfusion hm
        | some u =>
            rw [lk_mergeList_some (mergeList t s) hnm t k u hm]
            congr 1
            cases hs : lk s k with
            | none =>
                have hu : lk t k = some u := by
                  rw [← lk_mergeList_none s hnds t k hs]
                  exact hm
                rw [hu]
                cases u with
                | vstr a => rfl
                | vint m => rfl
                | vdict du =>
                    rw [cmb_dict]
                    congr 1
                    apply mergeList_self du
                    have hv := valWF_of_lk hentt hu
                    rw [valWF_vdict] at hv
                    exact hv
            | some v =>
                rw [lk_mergeList_some s hnds t k v hs] at hm
                obtain rfl : cmb (lk t k) v = u := Option.some.inj hm
                cases hlt : lk t k with
                | none => rfl
                | some w =>
                    cases w with
                    | vstr a => rfl
                    | vint m => rfl
                    | vdict dt =>
                        cases v with
                        | vstr a => rfl
                        | vint m => rfl
                        | vdict dv =>
                            show Val.vdict (mergeList dt (mergeList dt dv))
                              = Val.vdict (mergeList dt dv)
                            congr 1
                            apply ih dt dv
                            · have h1 := sizeOf_lk hlt
                              have h2 := sizeOf_lk hs
                              have h3 : sizeOf (Val.vdict dt) = 1 + sizeOf dt := by
                                simp
                              have h4 : sizeOf (Val.vdict dv) = 1 + sizeOf dv := by
                                simp
                              omega
                            · have hv := valWF_of_lk hentt hlt
                              rw [valWF_vdict] at hv
                              exact hv
                            · have hv := valWF_of_lk hents hs
                              rw [valWF_vdict] at hv
                              exact hv

theorem mergeList_idem (t s : Dict) (ht : dictWF t = true) (hs : dictWF s = true) :
    mergeList t (mergeList t s) = mergeList t s :=
  mergeList_idem_aux (sizeOf t + sizeOf s + 1) t s (Nat.lt_succ_self _) ht hs

theorem keys_ne_nil {α : Type} {d : List (String × α)} (h : d ≠ []) :
    keys d ≠ [] := by
  cases d with
  | nil => exact absurd rfl h
  | cons p rest =>
      obtain ⟨k, v⟩ := p
      rw [keys_cons]
      exact fun hc => List.noConfusion hc

theorem mergeList_ne_nil {t s : Dict} (hs : strNodup (keys s) = true)
    (ht : t ≠ []) : mergeList t s ≠ [] := by
  intro hc
  have hk := keys_mergeList s hs t
  rw [hc, keys_nil] at hk
  have := List.append_eq_nil.mp hk.symm
  exact keys_ne_nil ht this.1

theorem isEmpty_eq_false_iff {α : Type} (l : List α) :
    l.isEmpty = false ↔ l ≠ [] := by
  cases l <;> simp

theorem isEmpty_eq_true_iff {α : Type} (l : List α) :
    l.isEmpty = true ↔ l = [] := by
  cases l <;> simp

/-! ### Lemmas: the lifecycle -/

theorem fill_some {α : Type} (x : α) (y : Option α) : fill (some x) y = some x := rfl

theorem fill_none {α : Type} (y : Option α) : fill none y = y := by
  cases y <;> rfl

theorem load_run_id (w : Workflow) (s : WorkflowSession) :
    (load_workflow_session w s).run_id = w.run_id := rfl

theorem load_run_input (w : Workflow) (s : WorkflowSession) :
    (load_workflow_session w s).run_input = w.run_input := rfl

theorem load_run_response (w : Workflow) (s : WorkflowSession) :
    (load_workflow_session w s).run_response = w.run_response := rfl

theorem load_storage (w : Workflow) (s : WorkflowSession) :
    (load_workflow_session w s).storage = w.storage := rfl

theorem load_agents (w : Workflow) (s : WorkflowSession) :
    (load_workflow_session w s).agents = w.agents := rfl

theorem load_session_id (w : Workflow) (s : WorkflowSession) :
    (load_workflow_session w s).session_id = fill w.session_id s.session_id := rfl

theorem load_workflow_id (w : Workflow) (s : WorkflowSession) :
    (load_workflow_session w s).workflow_id = fill w.workflow_id s.workflow_id := rfl

theorem load_user_id (w : Workflow) (s : WorkflowSession) :
    (load_workflow_session w s).user_id = fill w.user_id s.user_id := rfl

theorem read_storage_none (w : Workflow) (h : w.storage = none) :
    read_from_storage w = (w.workflow_session, w) := by
  simp [read_from_storage, h]

theorem read_preserves (w : Workflow) :
    (read_from_storage w).2.run_id = w.run_id ∧
    (read_from_storage w).2.run_input = w.run_input ∧
    (read_from_storage w).2.run_response = w.run_response ∧
    (read_from_storage w).2.agents = w.agents := by
  cases hst : w.storage with
  | none => simp [read_from_storage, hst]
  | some st =>
      cases hsid : w.session_id with
      | none => simp [read_from_storage, hst, hsid]
      | some sid =>
          cases hlk : lk st.sessions sid with
          | none => simp [read_from_storage, hst, hsid, Storage.read, hlk]
          | some s =>
              simp [read_from_storage, hst, hsid, Storage.read, hlk,
                load_run_id, load_run_input, load_run_response, load_agents]

theorem read_session_id_some (w : Workflow) {x : String} (h : w.session_id = some x) :
    (read_from_storage w).2.session_id = some x := by
  cases hst : w.storage with
  | none => simp [read_from_storage, hst, h]
  | some st =>
      cases hlk : lk st.sessions x with
      | none => simp [read_from_storage, hst, h, Storage.read, hlk]
      | some s =>
          simp [read_from_storage, hst, h, Storage.read, hlk, load_session_id,
            fill_some]

theorem read_workflow_id_some (w : Workflow) {x : String} (h : w.workflow_id = some x) :
    (read_from_storage w).2.workflow_id = some x := by
  cases hst : w.storage with
  | none => simp [read_from_storage, hst, h]
  | some st =>
      cases hsid : w.session_id with
      | none => simp [read_from_storage, hst, hsid, h]
      | some sid =>
          cases hlk : lk st.sessions sid with
          | none => simp [read_from_storage, hst, hsid, h, Storage.read, hlk]
          | some s =>
              simp [read_from_storage, hst, hsid, Storage.read, hlk,
                load_workflow_id, h, fill_some]

theorem read_storage_some (w : Workflow) {st : Storage} {sid : String}
    (hst : w.storage = some st) (hsid : w.session_id = some sid) :
    (read_from_storage w).2.storage = some { st with reads := st.reads + 1 } := by
  cases hlk : lk st.sessions sid with
  | none => simp [read_from_storage, hst, hsid, Storage.read, hlk]
  | some s => simp [read_from_storage, hst, hsid, Storage.read, hlk, load_storage]

theorem write_storage_none (w : Workflow) (h : w.storage = none) :
    write_to_storage w = (w.workflow_session, w) := by
  simp [write_to_storage, h]

theorem write_preserves (w : Workflow) :
    (write_to_storage w).2.memory = w.memory ∧
    (write_to_storage w).2.run_id = w.run_id ∧
    (write_to_storage w).2.session_id = w.session_id ∧
    (write_to_storage w).2.workflow_id = w.workflow_id ∧
    (write_to_storage w).2.run_response = w.run_response ∧
    (write_to_storage w).2.agents = w.agents := by
  cases hst : w.storage with
  | none => simp [write_to_storage, hst]
  | some st =>
      by_cases hf : st.failUpserts = true
      · simp [write_to_storage, hst, Storage.upsert, hf]
      · simp [write_to_storage, hst, Storage.upsert, hf]

theorem write_writes (w : Workflow) {st : Storage} (h : w.storage = some st) :
    ∃ st1, (write_to_storage w).2.storage = some st1 ∧
      st1.writes = st.writes + 1 := by
  by_cases hf : st.failUpserts = true
  · refine ⟨{ st with writes := st.writes + 1 }, ?_, rfl⟩
    simp [write_to_storage, h, Storage.upsert, hf]
  · refine ⟨{ st with writes := st.writes + 1, sessions := setKey st.sessions ((get_workflow_session w).session_id.getD "") (get_workflow_session w) }, ?_, rfl⟩
    simp [write_to_storage, h, Storage.upsert, hf]

theorem ssm_workflow_id (w : Workflow) :
    (set_storage_mode w).workflow_id = w.workflow_id := by
  cases h : w.storage <;> simp [set_storage_mode, h]

theorem ssm_session_id (w : Workflow) :
    (set_storage_mode w).session_id = w.session_id := by
  cases h : w.storage <;> simp [set_storage_mode, h]

theorem ssm_storage_some (w : Workflow) {st : Storage} (h : w.storage = some st) :
    (set_storage_mode w).storage = some { st with mode := "workflow" } := by
  simp [set_storage_mode, h]

theorem ssm_storage_none (w : Workflow) (h : w.storage = none) :
    (set_storage_mode w).storage = none := by
  simp [set_storage_mode, h]

theorem swi_session_id (w : Workflow) (g : Nat) :
    (set_workflow_id w g).1.session_id = w.session_id := by
  cases h : w.workflow_id <;> simp [set_workflow_id, h]

theorem swi_storage (w : Workflow) (g : Nat) :
    (set_workflow_id w g).1.storage = w.storage := by
  cases h : w.workflow_id <;> simp [set_workflow_id, h]

theorem swi_workflow_id_some (w : Workflow) (g : Nat) {x : String}
    (h : w.workflow_id = some x) : (set_workflow_id w g).1.workflow_id = some x := by
  simp [set_workflow_id, h]

theorem swi_workflow_id_isSome (w : Workflow) (g : Nat) :
    (set_workflow_id w g).1.workflow_id.isSome = true := by
  cases h : w.workflow_id <;> simp [set_workflow_id, h]

theorem swi_gen_ge (w : Workflow) (g : Nat) : g ≤ (set_workflow_id w g).2 := by
  cases h : w.workflow_id <;> simp [set_workflow_id, h]

theorem ssi_workflow_id (w : Workflow) (g : Nat) :
    (set_session_id w g).1.workflow_id = w.workflow_id := by
  cases h : w.session_id <;> simp [set_session_id, h]

theorem ssi_storage (w : Workflow) (g : Nat) :
    (set_session_id w g).1.storage = w.storage := by
  cases h : w.session_id <;> simp [set_session_id, h]

theorem ssi_session_id_some (w : Workflow) (g : Nat) {x : String}
    (h : w.session_id = some x) : (set_session_id w g).1.session_id = some x := by
  simp [set_session_id, h]

theorem ssi_session_id_isSome (w : Workflow) (g : Nat) :
    (set_session_id w g).1.session_id.isSome = true := by
  cases h : w.session_id <;> simp [set_session_id, h]

theorem ssi_gen_ge (w : Workflow) (g : Nat) : g ≤ (set_session_id w g).2 := by
  cases h : w.session_id <;> simp [set_session_id, h]

theorem im_workflow_id (w : Workflow) :
    (initialize_memory w).workflow_id = w.workflow_id := by
  cases h : w.memory <;> simp [initialize_memory, h]

theorem im_session_id (w : Workflow) :
    (initialize_memory w).session_id = w.session_id := by
  cases h : w.memory <;> simp [initialize_memory, h]

theorem im_storage (w : Workflow) :
    (initialize_memory w).storage = w.storage := by
  cases h : w.memory <;> simp [initialize_memory, h]

theorem preReadState_session_id (w : Workflow) (g : Nat) (kw : Dict) :
    ((preReadState w g kw).1).session_id
      = (set_session_id (set_workflow_id (set_storage_mode w) g).1
          (set_workflow_id (set_storage_mode w) g).2).1.session_id := by
  rw [show ((preReadState w g kw).1).session_id
      = (initialize_memory (set_session_id (set_workflow_id (set_storage_mode w) g).1
          (set_workflow_id (set_storage_mode w) g).2).1).session_id from rfl,
    im_session_id]

theorem preReadState_workflow_id (w : Workflow) (g : Nat) (kw : Dict) :
    ((preReadState w g kw).1).workflow_id
      = (set_workflow_id (set_storage_mode w) g).1.workflow_id := by
  rw [show ((preReadState w g kw).1).workflow_id
      = (initialize_memory (set_session_id (set_workflow_id (set_storage_mode w) g).1
          (set_workflow_id (set_storage_mode w) g).2).1).workflow_id from rfl,
    im_workflow_id, ssi_workflow_id]

theorem preReadState_storage (w : Workflow) (g : Nat) (kw : Dict) :
    ((preReadState w g kw).1).storage = (set_storage_mode w).storage := by
  rw [show ((preReadState w g kw).1).storage
      = (initialize_memory (set_session_id (set_workflow_id (set_storage_mode w) g).1
          (set_workflow_id (set_storage_mode w) g).2).1).storage from rfl,
    im_storage, ssi_storage, swi_storage]

theorem preRun_unfold (w : Workflow) (g : Nat) (kw : Dict) :
    (preRun w g kw).1
      = update_agent_session_ids (read_from_storage (preReadState w g kw).1).2 := rfl

theorem preRun_gen_eq (w : Workflow) (g : Nat) (kw : Dict) :
    (preRun w g kw).2 = (preReadState w g kw).2 := rfl

theorem preRun_run_id_char (w : Workflow) (g : Nat) (kw : Dict) :
    ∃ m, g ≤ m ∧ (preRun w g kw).2 = m + 1 ∧
      ((preRun w g kw).1).run_id = some (uuidOf m) := by
  refine ⟨(set_session_id (set_workflow_id (set_storage_mode w) g).1
      (set_workflow_id (set_storage_mode w) g).2).2, ?_, rfl, ?_⟩
  · exact Nat.le_trans (swi_gen_ge _ g) (ssi_gen_ge _ _)
  · rw [preRun_unfold, update_agent_session_ids, (read_preserves _).1]
    rfl

theorem preRun_session_id_stable (w : Workflow) (g : Nat) (kw : Dict) {x : String}
    (h : w.session_id = some x) : ((preRun w g kw).1).session_id = some x := by
  rw [preRun_unfold, update_agent_session_ids]
  apply read_session_id_some
  rw [preReadState_session_id]
  apply ssi_session_id_some
  rw [swi_session_id, ssm_session_id]
  exact h

theorem preRun_session_id_isSome (w : Workflow) (g : Nat) (kw : Dict) :
    ((preRun w g kw).1).session_id.isSome = true := by
  have h := ssi_session_id_isSome (set_workflow_id (set_storage_mode w) g).1
    (set_workflow_id (set_storage_mode w) g).2
  obtain ⟨x, hx⟩ := Option.isSome_iff_exists.mp h
  rw [preRun_unfold, update_agent_session_ids]
  have hs : ((preReadState w g kw).1).session_id = some x := by
    rw [preReadState_session_id]
    exact hx
  rw [read_session_id_some _ hs]
  rfl

theorem preRun_workflow_id_stable (w : Workflow) (g : Nat) (kw : Dict) {x : String}
    (h : w.workflow_id = some x) : ((preRun w g kw).1).workflow_id = some x := by
  rw [preRun_unfold, update_agent_session_ids]
  apply read_workflow_id_some
  rw [preReadState_workflow_id]
  apply swi_workflow_id_some
  rw [ssm_workflow_id]
  exact h

theorem preRun_workflow_id_isSome (w : Workflow) (g : Nat) (kw : Dict) :
    ((preRun w g kw).1).workflow_id.isSome = true := by
  have h := swi_workflow_id_isSome (set_storage_mode w) g
  obtain ⟨x, hx⟩ := Option.isSome_iff_exists.mp h
  rw [preRun_unfold, update_agent_session_ids]
  have hs : ((preReadState w g kw).1).workflow_id = some x := by
    rw [preReadState_workflow_id]
    exact hx
  rw [read_workflow_id_some _ hs]
  rfl

theorem preRun_storage_some (w : Workflow) (g : Nat) (kw : Dict) {st : Storage}
    (h : w.storage = some st) :
    ((preRun w g kw).1).storage
      = some { st with mode := "workflow", reads := st.reads + 1 } := by
  rw [preRun_unfold, update_agent_session_ids]
  have hst : ((preReadState w g kw).1).storage = some { st with mode := "workflow" } := by
    rw [preReadState_storage]
    exact ssm_storage_some w h
  have h2 := ssi_session_id_isSome (set_workflow_id (set_storage_mode w) g).1
    (set_workflow_id (set_storage_mode w) g).2
  obtain ⟨x, hx⟩ := Option.isSome_iff_exists.mp h2
  have hs : ((preReadState w g kw).1).session_id = some x := by
    rw [preReadState_session_id]
    exact hx
  rw [read_storage_some _ hst hs]

theorem preRun_storage_none (w : Workflow) (g : Nat) (kw : Dict)
    (h : w.storage = none) : ((preRun w g kw).1).storage = none := by
  rw [preRun_unfold, update_agent_session_ids]
  have hst : ((preReadState w g kw).1).storage = none := by
    rw [preReadState_storage]
    exact ssm_storage_none w h
  rw [show (read_from_storage (preReadState w g kw).1).2.storage
      = ((preReadState w g kw).1).storage from ?_, hst]
  rw [read_storage_none _ hst]

theorem preRun_rr_content (w : Workflow) (g : Nat) (kw : Dict) :
    (((preRun w g kw).1).run_response.getD {}).content = none := by
  rw [preRun_unfold, update_agent_session_ids, (read_preserves _).2.2.1]
  rfl

theorem preRun_run_input (w : Workflow) (g : Nat) (kw : Dict) :
    ((preRun w g kw).1).run_input = some kw := by
  rw [preRun_unfold, update_agent_session_ids, (read_preserves _).2.1]
  rfl

theorem streamLoop_fst (w : Workflow) :
    ∀ items : List Item, (streamLoop w items).1 = items.map (stampItem w) := by
  intro items
  induction items with
  | nil => rfl
  | cons it rest ih =>
      cases it with
      | resp r => simp [streamLoop, stampItem, ih]
      | notResp t => simp [streamLoop, stampItem, ih]

theorem streamLoop_acc (w : Workflow) :
    ∀ items : List Item, (streamLoop w items).2.1 = strContents items := by
  intro items
  induction items with
  | nil => rfl
  | cons it rest ih =>
      cases it with
      | resp r => simp [streamLoop, strContents, ih]
      | notResp t => simp [streamLoop, strContents, ih]

theorem runStream_wf (w : Workflow) (items : List Item) :
    ∃ w1 : Workflow, (runStream w items).2.1 = (write_to_storage w1).2 ∧
      w1.session_id = w.session_id ∧
      w1.workflow_id = w.workflow_id ∧
      w1.run_id = w.run_id ∧
      w1.storage = w.storage ∧
      w1.memory = some ((w.memory.getD {}).add_run
        { input := w.run_input,
          response := { w.run_response.getD {} with
            content := some (Val.vstr (streamLoop w items).2.1) } }) := by
  exact ⟨_, rfl, rfl, rfl, rfl, rfl, rfl⟩

theorem runSingle_wf (w : Workflow) (r : RunResponse) :
    ∃ w1 : Workflow, (runSingle w r).2.1 = (write_to_storage w1).2 ∧
      w1.session_id = w.session_id ∧
      w1.workflow_id = w.workflow_id ∧
      w1.run_id = w.run_id ∧
      w1.storage = w.storage ∧
      w1.memory = some ((w.memory.getD {}).add_run
        { input := w.run_input,
          response :=
            match contentStr r.content with
            | some s => { w.run_response.getD {} with content := some (Val.vstr s) }
            | none => w.run_response.getD {} }) := by
  exact ⟨_, rfl, rfl, rfl, rfl, rfl, rfl⟩

theorem run_wf_gen (w : Workflow) (g : Nat) (kw : Dict) (sub : SubResult) :
    (run_workflow w g kw sub).gen = (preRun w g kw).2 := by
  cases sub <;> rfl

theorem run_wf_raises (w : Workflow) (g : Nat) (kw : Dict) (msg : String) :
    (run_workflow w g kw (SubResult.raises msg)).wf = (preRun w g kw).1 := rfl

theorem run_wf_ids (w : Workflow) (g : Nat) (kw : Dict) (sub : SubResult) :
    (run_workflow w g kw sub).wf.session_id = ((preRun w g kw).1).session_id ∧
    (run_workflow w g kw sub).wf.workflow_id = ((preRun w g kw).1).workflow_id ∧
    (run_workflow w g kw sub).wf.run_id = ((preRun w g kw).1).run_id := by
  cases sub with
  | raises msg => exact ⟨rfl, rfl, rfl⟩
  | otherValue => exact ⟨rfl, rfl, rfl⟩
  | stream items =>
      obtain ⟨w1, hw1, hsid, hwid, hrid, _, _⟩ := runStream_wf (preRun w g kw).1 items
      have hshow : (run_workflow w g kw (SubResult.stream items)).wf
          = (runStream (preRun w g kw).1 items).2.1 := rfl
      rw [hshow, hw1]
      obtain ⟨_, hr2, hs2, hw2, _, _⟩ := write_preserves w1
      rw [hr2, hs2, hw2, hsid, hwid, hrid]
      exact ⟨rfl, rfl, rfl⟩
  | single r =>
      obtain ⟨w1, hw1, hsid, hwid, hrid, _, _⟩ := runSingle_wf (preRun w g kw).1 r
      have hshow : (run_workflow w g kw (SubResult.single r)).wf
          = (runSingle (preRun w g kw).1 r).2.1 := rfl
      rw [hshow, hw1]
      obtain ⟨_, hr2, hs2, hw2, _, _⟩ := write_preserves w1
      rw [hr2, hs2, hw2, hsid, hwid, hrid]
      exact ⟨rfl, rfl, rfl⟩

theorem runEntry_true (w : Workflow) (g : Nat) (kw : Dict) (sub : SubResult) :
    runEntry w g kw true sub = run_workflow w g kw sub := rfl

/-! ### Claim theorems -/

/-- Claim C4: for every workflow whose subclass does not override the run
behavior, invoking the public entry point logs an error identifying that no
implementation exists, returns nothing (modelled by the `noImpl` outcome),
does not raise, and performs no storage write (the instance, including its
storage, is untouched). -/
theorem c4_not_overridden (w : Workflow) (g : Nat) (kw : Dict) (sub : SubResult) :
    (runEntry w g kw false sub).outcome = RunOutcome.noImpl ∧
    (runEntry w g kw false sub).logs = [LogMsg.errNotImplemented] ∧
    (runEntry w g kw false sub).wf = w ∧
    (runEntry w g kw false sub).gen = g ∧
    (∀ msg, (runEntry w g kw false sub).outcome ≠ RunOutcome.raised msg) := by
  refine ⟨rfl, rfl, rfl, rfl, ?_⟩
  intro msg h
  exact RunOutcome.noConfusion h

/-- Witness for C4 at a concrete workflow. -/
theorem c4_not_overridden_witness :
    (runEntry {} 0 [] false SubResult.otherValue).outcome = RunOutcome.noImpl ∧
    (runEntry {} 0 [] false SubResult.otherValue).wf = {} ∧
    (runEntry {} 0 [] false SubResult.otherValue).logs = [LogMsg.errNotImplemented] := by
  have h := c4_not_overridden {} 0 [] SubResult.otherValue
  exact ⟨h.1, h.2.2.1, h.2.1⟩

/-- Claim C5: with no storage backend configured, `read_from_storage` and
`write_to_storage` are no-ops returning the (unset) cached record, and the
entry point never raises due to the absence of persistence: the only raising
outcome is the one produced by the subclass routine itself. -/
theorem c5_no_storage (w : Workflow) (g : Nat) (kw : Dict) (sub : SubResult)
    (h : w.storage = none) :
    read_from_storage w = (w.workflow_session, w) ∧
    write_to_storage w = (w.workflow_session, w) ∧
    (∀ msg, (runEntry w g kw true sub).outcome = RunOutcome.raised msg →
      sub = SubResult.raises msg) := by
  refine ⟨read_storage_none w h, write_storage_none w h, ?_⟩
  intro msg hmsg
  cases sub with
  | raises m =>
      have h2 : m = msg := RunOutcome.raised.inj hmsg
      rw [h2]
  | stream items => exact RunOutcome.noConfusion hmsg
  | single r => exact RunOutcome.noConfusion hmsg
  | otherValue => exact RunOutcome.noConfusion hmsg

/-- Witness for C5 at a concrete storage-less workflow. -/
theorem c5_no_storage_witness :
    read_from_storage {} = (none, {}) ∧ write_to_storage {} = (none, {}) := by
  have h := c5_no_storage {} 0 [] SubResult.otherValue rfl
  exact ⟨h.1, h.2.1⟩

/-- Claim C7 (refuted by the code): a workflow subclass holding one agent
field, constructed without a session id, runs once; at the moment the
subclass routine would be invoked the workflow has a fresh session id but
the agent still carries the construction-time `session_id = None`, because
`update_agent_session_ids` tests `isinstance(f.type, Agent)` on the type
annotation and therefore never updates any agent. -/
theorem c7_agent_session_ids_not_propagated :
    ((preRun (Workflow.post_init
        { session_id := none, agents := [{ session_id := some "stale" }] }) 0 []).1).session_id
      = some (uuidOf 1) ∧
    ((preRun (Workflow.post_init
        { session_id := none, agents := [{ session_id := some "stale" }] }) 0 []).1).agents
      = [{ session_id := none }] ∧
    (∀ a ∈ ((preRun (Workflow.post_init
        { session_id := none, agents := [{ session_id := some "stale" }] }) 0 []).1).agents,
      a.session_id ≠ ((preRun (Workflow.post_init
        { session_id := none, agents := [{ session_id := some "stale" }] }) 0 []).1).session_id) := by
  refine ⟨rfl, rfl, ?_⟩
  intro a ha
  have hag : ((preRun (Workflow.post_init
      { session_id := none, agents := [{ session_id := some "stale" }] }) 0 []).1).agents
      = [({ session_id := none } : Agent)] := rfl
  rw [hag] at ha
  have haa : a = ({ session_id := none } : Agent) := List.mem_singleton.mp ha
  rw [haa]
  intro hc
  exact Option.noConfusion hc

/-- Claim C10 as literally stated is false at content `None`: the returned
response and the recorded outer response then have the same content (both
`None`) even though that content is not a string. -/
theorem c10_counterexample :
    (run_workflow {} 0 [] (SubResult.single {})).outcome
      = RunOutcome.singleResp { run_id := some (uuidOf 2), session_id := some (uuidOf 1), workflow_id := some (uuidOf 0), content := none } ∧
    ((run_workflow {} 0 [] (SubResult.single {})).wf.memory.getD {}).runs.map
      (fun rn => rn.response.content) = [none] ∧
    contentStr none = none := ⟨rfl, rfl, rfl⟩

/-- Claim C10 (amended): for a single returned `RunResponse`, the entry point
stamps and returns it with its content intact, while the `WorkflowRun`
appended to memory carries the separately constructed outer response, whose
content is the returned string content when that content is a string and
stays `None` otherwise — so recorded and returned content agree exactly when
the content is a string or `None`. -/
theorem c10_single_content (w : Workflow) (g : Nat) (kw : Dict) (r : RunResponse) :
    (run_workflow w g kw (SubResult.single r)).outcome
      = RunOutcome.singleResp (stampResp (preRun w g kw).1 r) ∧
    (stampResp (preRun w g kw).1 r).content = r.content ∧
    (∃ m : WorkflowMemory,
      (run_workflow w g kw (SubResult.single r)).wf.memory = some m ∧
      m.runs = (((preRun w g kw).1).memory.getD {}).runs
        ++ [{ input := some kw,
              response :=
                match contentStr r.content with
                | some s => { ((preRun w g kw).1).run_response.getD {} with
                    content := some (Val.vstr s) }
                | none => ((preRun w g kw).1).run_response.getD {} }]) ∧
    (contentStr r.content = none →
      (match contentStr r.content with
        | some s => { ((preRun w g kw).1).run_response.getD {} with
            content := some (Val.vstr s) }
        | none => ((preRun w g kw).1).run_response.getD {} : RunResponse).content = none) ∧
    (∀ s, contentStr r.content = some s →
      (match contentStr r.content with
        | some s1 => { ((preRun w g kw).1).run_response.getD {} with
            content := some (Val.vstr s1) }
        | none => ((preRun w g kw).1).run_response.getD {} : RunResponse).content
        = some (Val.vstr s)) ∧
    ((match contentStr r.content with
        | some s1 => { ((preRun w g kw).1).run_response.getD {} with
            content := some (Val.vstr s1) }
        | none => ((preRun w g kw).1).run_response.getD {} : RunResponse).content
        = r.content
      ↔ (∃ s, r.content = some (Val.vstr s)) ∨ r.content = none) := by
  obtain ⟨w1, hw1, _, _, _, _, hmem⟩ := runSingle_wf (preRun w g kw).1 r
  refine ⟨rfl, rfl, ?_, ?_, ?_, ?_⟩
  · refine ⟨_, ?_, rfl⟩
    have hb : (run_workflow w g kw (SubResult.single r)).wf.memory = w1.memory := by
      rw [show (run_workflow w g kw (SubResult.single r)).wf
          = (runSingle (preRun w g kw).1 r).2.1 from rfl, hw1, (write_preserves w1).1]
    rw [hb, hmem, preRun_run_input]
    rfl
  · intro hc
    rw [hc]
    exact preRun_rr_content w g kw
  · intro s hc
    rw [hc]
  · cases hrc : r.content with
    | none =>
        constructor
        · intro _
          exact Or.inr rfl
        · intro _
          exact preRun_rr_content w g kw
    | some v =>
        cases v with
        | vstr s =>
            constructor
            · intro _
              exact Or.inl ⟨s, rfl⟩
            · intro _
              rfl
        | vint n =>
            constructor
            · intro hx
              have hx2 : (((preRun w g kw).1).run_response.getD {}).content
                  = some (Val.vint n) := hx
              rw [preRun_rr_content w g kw] at hx2
              exact Option.noConfusion hx2
            · intro hx
              rcases hx with ⟨s, hs⟩ | hs
              · exact absurd (Option.some.inj hs) (fun hv => Val.noConfusion hv)
              · exact Option.noConfusion hs
        | vdict d =>
            constructor
            · intro hx
              have hx2 : (((preRun w g kw).1).run_response.getD {}).content
                  = some (Val.vdict d) := hx
              rw [preRun_rr_content w g kw] at hx2
              exact Option.noConfusion hx2
            · intro hx
              rcases hx with ⟨s, hs⟩ | hs
              · exact absurd (Option.some.inj hs) (fun hv => Val.noConfusion hv)
              · exact Option.noConfusion hs

/-- Witness for C10 at a concrete string-content response. -/
theorem c10_single_content_witness :
    (run_workflow {} 0 [] (SubResult.single { content := some (Val.vstr "hi") })).outcome
      = RunOutcome.singleResp { run_id := some (uuidOf 2), session_id := some (uuidOf 1), workflow_id := some (uuidOf 0), content := some (Val.vstr "hi") } ∧
    ((run_workflow {} 0 [] (SubResult.single { content := some (Val.vstr "hi") })).wf.memory.getD
      {}).runs.map (fun rn => rn.response.content) = [some (Val.vstr "hi")] := by
  have h := c10_single_content {} 0 [] { content := some (Val.vstr "hi") }
  refine ⟨h.1.trans rfl, ?_⟩
  obtain ⟨m, hm, hruns⟩ := h.2.2.1
  rw [hm]
  rw [show (some m).getD ({} : WorkflowMemory) = m from rfl, hruns]
  rfl

/-- Claim C9: when the subclass routine raises, that exact exception is
logged and re-raised unchanged, and the run is not recorded: memory is
exactly what it was before the routine ran, and no upsert happens (write
counter and stored sessions unchanged; absent storage stays absent). -/
theorem c9_exception_propagates (w : Workflow) (g : Nat) (kw : Dict) (msg : String) :
    (run_workflow w g kw (SubResult.raises msg)).outcome = RunOutcome.raised msg ∧
    (run_workflow w g kw (SubResult.raises msg)).logs = [LogMsg.errRunFailed msg] ∧
    (run_workflow w g kw (SubResult.raises msg)).wf.memory = ((preRun w g kw).1).memory ∧
    (∀ st, w.storage = some st →
      ∃ st1, (run_workflow w g kw (SubResult.raises msg)).wf.storage = some st1 ∧
        st1.writes = st.writes ∧ st1.sessions = st.sessions) ∧
    (w.storage = none → (run_workflow w g kw (SubResult.raises msg)).wf.storage = none) := by
  refine ⟨rfl, rfl, rfl, ?_, ?_⟩
  · intro st h
    refine ⟨{ st with mode := "workflow", reads := st.reads + 1 }, ?_, rfl, rfl⟩
    rw [run_wf_raises]
    exact preRun_storage_some w g kw h
  · intro h
    rw [run_wf_raises]
    exact preRun_storage_none w g kw h

/-- Witness for C9 at a concrete workflow with storage. -/
theorem c9_exception_propagates_witness :
    (run_workflow { storage := some {} } 0 [] (SubResult.raises "boom")).outcome
      = RunOutcome.raised "boom" ∧
    (∃ st1, (run_workflow { storage := some {} } 0 []
        (SubResult.raises "boom")).wf.storage = some st1 ∧ st1.writes = 0) := by
  have h := c9_exception_propagates { storage := some {} } 0 [] "boom"
  refine ⟨h.1, ?_⟩
  obtain ⟨st1, h1, h2, _⟩ := h.2.2.2.1 {} rfl
  exact ⟨st1, h1, h2⟩

/-- Claim C1: when the subclass routine yields a stream, consuming the
returned sequence yields each item in order exactly as produced, with
run/session/workflow ids stamped onto every `RunResponse` item; after
exhaustion exactly one `WorkflowRun` is appended to memory whose response
content is the in-order concatenation of the yielded string contents, and
the session is written to storage exactly once. -/
theorem c1_stream_run (w : Workflow) (g : Nat) (kw : Dict) (items : List Item)
    {st : Storage} (h : w.storage = some st) :
    (run_workflow w g kw (SubResult.stream items)).outcome
      = RunOutcome.streamed (items.map (stampItem (preRun w g kw).1)) ∧
    (∀ r : RunResponse, stampItem (preRun w g kw).1 (Item.resp r)
      = Item.resp { r with run_id := ((preRun w g kw).1).run_id,
                           session_id := ((preRun w g kw).1).session_id,
                           workflow_id := ((preRun w g kw).1).workflow_id }) ∧
    (∃ m : WorkflowMemory,
      (run_workflow w g kw (SubResult.stream items)).wf.memory = some m ∧
      m.runs = (((preRun w g kw).1).memory.getD {}).runs
        ++ [{ input := some kw,
              response := { ((preRun w g kw).1).run_response.getD {} with
                content := some (Val.vstr (strContents items)) } }]) ∧
    (∃ st2, (run_workflow w g kw (SubResult.stream items)).wf.storage = some st2 ∧
      st2.writes = st.writes + 1) := by
  obtain ⟨w1, hw1, _, _, _, hstg, hmem⟩ := runStream_wf (preRun w g kw).1 items
  have hwf : (run_workflow w g kw (SubResult.stream items)).wf
      = (runStream (preRun w g kw).1 items).2.1 := rfl
  refine ⟨?_, fun r => rfl, ?_, ?_⟩
  · have houtcome : (run_workflow w g kw (SubResult.stream items)).outcome
        = RunOutcome.streamed (streamLoop (preRun w g kw).1 items).1 := rfl
    rw [houtcome, streamLoop_fst]
  · refine ⟨_, ?_, rfl⟩
    have hb : (run_workflow w g kw (SubResult.stream items)).wf.memory = w1.memory := by
      rw [hwf, hw1, (write_preserves w1).1]
    rw [hb, hmem, streamLoop_acc, preRun_run_input]
    rfl
  · have hst1 : w1.storage = some { st with mode := "workflow", reads := st.reads + 1 } := by
      rw [hstg]
      exact preRun_storage_some w g kw h
    obtain ⟨st2, h2, h3⟩ := write_writes w1 hst1
    refine ⟨st2, ?_, h3⟩
    rw [hwf, hw1]
    exact h2

/-- Witness for C1: three yielded responses with contents "a", "b", "c". -/
theorem c1_stream_run_witness :
    (run_workflow { storage := some {} } 0 []
      (SubResult.stream [Item.resp { content := some (Val.vstr "a") },
        Item.resp { content := some (Val.vstr "b") },
        Item.resp { content := some (Val.vstr "c") }])).outcome
      = RunOutcome.streamed
          [Item.resp { run_id := some (uuidOf 2), session_id := some (uuidOf 1), workflow_id := some (uuidOf 0), content := some (Val.vstr "a") },
           Item.resp { run_id := some (uuidOf 2), session_id := some (uuidOf 1), workflow_id := some (uuidOf 0), content := some (Val.vstr "b") },
           Item.resp { run_id := some (uuidOf 2), session_id := some (uuidOf 1), workflow_id := some (uuidOf 0), content := some (Val.vstr "c") }] ∧
    (∃ m : WorkflowMemory,
      (run_workflow { storage := some {} } 0 []
        (SubResult.stream [Item.resp { content := some (Val.vstr "a") },
          Item.resp { content := some (Val.vstr "b") },
          Item.resp { content := some (Val.vstr "c") }])).wf.memory = some m ∧
      m.runs.map (fun rn => rn.response.content) = [some (Val.vstr "abc")]) ∧
    (∃ st2, (run_workflow { storage := some {} } 0 []
      (SubResult.stream [Item.resp { content := some (Val.vstr "a") },
        Item.resp { content := some (Val.vstr "b") },
        Item.resp { content := some (Val.vstr "c") }])).wf.storage = some st2 ∧
      st2.writes = 1) := by
  have h := c1_stream_run { storage := some {} } 0 []
    [Item.resp { content := some (Val.vstr "a") },
     Item.resp { content := some (Val.vstr "b") },
     Item.resp { content := some (Val.vstr "c") }] rfl
  refine ⟨?_, ?_, ?_⟩
  · rw [h.1]
    rfl
  · obtain ⟨m, hm, hruns⟩ := h.2.2.1
    refine ⟨m, hm, ?_⟩
    rw [hruns]
    rfl
  · obtain ⟨st2, h1, h2⟩ := h.2.2.2
    exact ⟨st2, h1, h2⟩

/-- Claim C2: on loading a persisted record, the session-state merge adopts
the persisted mapping verbatim when the live mapping is empty, deep-merges
the two (live values winning on conflicts, recursively for nested mappings,
persisted-only keys preserved) when both are non-empty, and leaves the live
state untouched when the persisted mapping is empty or absent. -/
theorem c2_session_state_merge (w : Workflow) (s : WorkflowSession) (db : Dict) :
    (s.session_data_session_state = some (Val.vdict db) → db ≠ [] →
      w.session_state = [] → (load_workflow_session w s).session_state = db) ∧
    (s.session_data_session_state = some (Val.vdict db) → db ≠ [] →
      w.session_state ≠ [] →
      (load_workflow_session w s).session_state = mergeList db w.session_state) ∧
    (s.session_data_session_state = none →
      (load_workflow_session w s).session_state = w.session_state) ∧
    (s.session_data_session_state = some (Val.vdict []) →
      (load_workflow_session w s).session_state = w.session_state) ∧
    (strNodup (keys w.session_state) = true →
      ∀ k, (lk w.session_state k = none →
              lk (mergeList db w.session_state) k = lk db k) ∧
           (∀ v, lk w.session_state k = some v →
              lk (mergeList db w.session_state) k = some (cmb (lk db k) v))) := by
  have hload : (load_workflow_session w s).session_state
      = sessionStateMerge s.session_data_session_state w.session_state := rfl
  refine ⟨?_, ?_, ?_, ?_, ?_⟩
  · intro h1 h2 h3
    rw [hload, h1]
    have hde : db.isEmpty = false := (isEmpty_eq_false_iff db).mpr h2
    simp [sessionStateMerge, hde, h3]
  · intro h1 h2 h3
    rw [hload, h1]
    have hde : db.isEmpty = false := (isEmpty_eq_false_iff db).mpr h2
    have hle : w.session_state.isEmpty = false := (isEmpty_eq_false_iff _).mpr h3
    simp [sessionStateMerge, hde, hle]
  · intro h1
    rw [hload, h1]
    rfl
  · intro h1
    rw [hload, h1]
    rfl
  · intro hnd k
    constructor
    · intro h1
      exact lk_mergeList_none w.session_state hnd db k h1
    · intro v h1
      exact lk_mergeList_some w.session_state hnd db k v h1

/-- Witness for C2: live `{"x": 2}` merged with persisted `{"x": 1, "y": 3}`
yields `{"x": 2, "y": 3}`; empty live state adopts persisted `{"x": 1}`. -/
theorem c2_session_state_merge_witness :
    (load_workflow_session { session_state := [("x", Val.vint 2)] }
      { session_data_session_state
          := some (Val.vdict [("x", Val.vint 1), ("y", Val.vint 3)]) }).session_state
      = [("x", Val.vint 2), ("y", Val.vint 3)] ∧
    (load_workflow_session {}
      { session_data_session_state := some (Val.vdict [("x", Val.vint 1)]) }).session_state
      = [("x", Val.vint 1)] := by
  constructor
  · have h := (c2_session_state_merge { session_state := [("x", Val.vint 2)] }
      { session_data_session_state
          := some (Val.vdict [("x", Val.vint 1), ("y", Val.vint 3)]) }
      [("x", Val.vint 1), ("y", Val.vint 3)]).2.1 rfl
      (fun hc => List.noConfusion hc) (fun hc => List.noConfusion hc)
    rw [h]
    simp [mergeList, mergeKey, lk, setKey]
  · exact (c2_session_state_merge {}
      { session_data_session_state := some (Val.vdict [("x", Val.vint 1)]) }
      [("x", Val.vint 1)]).1 rfl (fun hc => List.noConfusion hc) rfl

/-- Claim C3: the session-state merge step is idempotent — merging a second
time, with the already-merged mapping as the live state and the same
persisted input, returns the same mapping (for well-formed dictionaries,
i.e. unique keys at every nesting level, as Python dicts guarantee); and
`load_workflow_session` performs exactly this merge step. -/
theorem c3_merge_idempotent (db : Option Val) (live : Dict)
    (hdb : ∀ v, db = some v → valWF v = true) (hlive : dictWF live = true) :
    sessionStateMerge db (sessionStateMerge db live) = sessionStateMerge db live ∧
    (∀ (w : Workflow) (s : WorkflowSession), (load_workflow_session w s).session_state
      = sessionStateMerge s.session_data_session_state w.session_state) := by
  refine ⟨?_, fun w s => rfl⟩
  cases db with
  | none => rfl
  | some v =>
      cases v with
      | vstr a => rfl
      | vint n => rfl
      | vdict d =>
          have hd : dictWF d = true := by
            have hv := hdb (Val.vdict d) rfl
            rw [valWF_vdict] at hv
            exact hv
          by_cases hde : d.isEmpty = true
          · simp [sessionStateMerge, hde]
          · have hde2 : d.isEmpty = false := by
              cases hx : d.isEmpty
              · rfl
              · exact absurd hx hde
            by_cases hle : live.isEmpty = true
            · have h1 : sessionStateMerge (some (Val.vdict d)) live = d := by
                simp [sessionStateMerge, hde2, hle]
              rw [h1]
              have h2 : sessionStateMerge (some (Val.vdict d)) d = mergeList d d := by
                simp [sessionStateMerge, hde2]
              rw [h2, mergeList_self d hd]
            · have hle2 : live.isEmpty = false := by
                cases hx : live.isEmpty
                · rfl
                · exact absurd hx hle
              have h1 : sessionStateMerge (some (Val.vdict d)) live = mergeList d live := by
                simp [sessionStateMerge, hde2, hle2]
              rw [h1]
              have hmne : (mergeList d live).isEmpty = false := by
                apply (isEmpty_eq_false_iff _).mpr
                exact mergeList_ne_nil (dictWF_parts hlive).1
                  ((isEmpty_eq_false_iff d).mp hde2)
              have h2 : sessionStateMerge (some (Val.vdict d)) (mergeList d live)
                  = mergeList d (mergeList d live) := by
                simp [sessionStateMerge, hde2, hmne]
              rw [h2]
              exact mergeList_idem d live hd hlive

/-- Witness for C3 at the concrete example of the spec. -/
theorem c3_merge_idempotent_witness :
    sessionStateMerge (some (Val.vdict [("x", Val.vint 1), ("y", Val.vint 3)]))
      (sessionStateMerge (some (Val.vdict [("x", Val.vint 1), ("y", Val.vint 3)]))
        [("x", Val.vint 2)])
    = sessionStateMerge (some (Val.vdict [("x", Val.vint 1), ("y", Val.vint 3)]))
        [("x", Val.vint 2)] := by
  exact (c3_merge_idempotent (some (Val.vdict [("x", Val.vint 1), ("y", Val.vint 3)]))
    [("x", Val.vint 2)]
    (by
      intro v hv
      obtain rfl := Option.some.inj hv
      simp [valWF, entsWF, strNodup, keys, mem?])
    (by simp [dictWF, entsWF, valWF, strNodup, keys, mem?])).1

theorem read_ws_miss (w : Workflow) {st : Storage} {sid : String}
    (hst : w.storage = some st) (hsid : w.session_id = some sid)
    (hlk : lk st.sessions sid = none) :
    (read_from_storage w).2.workflow_session = none := by
  simp [read_from_storage, hst, hsid, Storage.read, hlk]

theorem write_ws (w : Workflow) {st : Storage} (h : w.storage = some st) :
    (write_to_storage w).2.workflow_session
      = (if st.failUpserts then none else some (get_workflow_session w)) := by
  by_cases hf : st.failUpserts = true
  · simp [write_to_storage, h, Storage.upsert, hf]
  · simp [write_to_storage, h, Storage.upsert, hf]

theorem write_counters (w : Workflow) {st : Storage} (h : w.storage = some st) :
    ∃ st1, (write_to_storage w).2.storage = some st1 ∧
      st1.writes = st.writes + 1 ∧ st1.reads = st.reads := by
  by_cases hf : st.failUpserts = true
  · refine ⟨{ st with writes := st.writes + 1 }, ?_, rfl, rfl⟩
    simp [write_to_storage, h, Storage.upsert, hf]
  · refine ⟨{ st with writes := st.writes + 1, sessions := setKey st.sessions ((get_workflow_session w).session_id.getD "") (get_workflow_session w) }, ?_, rfl, rfl⟩
    simp [write_to_storage, h, Storage.upsert, hf]

/-- Claim C6: each invocation of the entry point generates a fresh, distinct
`run_id`, while `workflow_id` and `session_id`, once set, remain unchanged
across calls on the same instance; the session-merge step fills
`workflow_id`/`user_id`/`session_id` only when currently unset. -/
theorem c6_ids_fresh_and_stable (w : Workflow) (g : Nat) (kw1 kw2 : Dict)
    (s1 s2 : SubResult) :
    ((runEntry w g kw1 true s1).wf.run_id.isSome = true) ∧
    ((runEntry (runEntry w g kw1 true s1).wf (runEntry w g kw1 true s1).gen
        kw2 true s2).wf.run_id ≠ (runEntry w g kw1 true s1).wf.run_id) ∧
    ((runEntry (runEntry w g kw1 true s1).wf (runEntry w g kw1 true s1).gen
        kw2 true s2).wf.workflow_id = (runEntry w g kw1 true s1).wf.workflow_id) ∧
    ((runEntry (runEntry w g kw1 true s1).wf (runEntry w g kw1 true s1).gen
        kw2 true s2).wf.session_id = (runEntry w g kw1 true s1).wf.session_id) ∧
    (∀ (w1 : Workflow) (s : WorkflowSession) (x : String),
      (w1.workflow_id = some x → (load_workflow_session w1 s).workflow_id = some x) ∧
      (w1.user_id = some x → (load_workflow_session w1 s).user_id = some x) ∧
      (w1.session_id = some x → (load_workflow_session w1 s).session_id = some x)) ∧
    (∀ (w1 : Workflow) (s : WorkflowSession),
      (w1.workflow_id = none → (load_workflow_session w1 s).workflow_id = s.workflow_id) ∧
      (w1.user_id = none → (load_workflow_session w1 s).user_id = s.user_id) ∧
      (w1.session_id = none → (load_workflow_session w1 s).session_id = s.session_id)) := by
  obtain ⟨m1, hm1g, hgen1, hrid1⟩ := preRun_run_id_char w g kw1
  have hrA : (runEntry w g kw1 true s1).wf.run_id = some (uuidOf m1) := by
    rw [runEntry_true, (run_wf_ids w g kw1 s1).2.2, hrid1]
  have hgenA : (runEntry w g kw1 true s1).gen = m1 + 1 := by
    rw [runEntry_true, run_wf_gen, hgen1]
  obtain ⟨m2, hm2g, hgen2, hrid2⟩ :=
    preRun_run_id_char (runEntry w g kw1 true s1).wf (runEntry w g kw1 true s1).gen kw2
  have hrB : (runEntry (runEntry w g kw1 true s1).wf (runEntry w g kw1 true s1).gen
      kw2 true s2).wf.run_id = some (uuidOf m2) := by
    rw [runEntry_true, (run_wf_ids _ _ kw2 s2).2.2, hrid2]
  refine ⟨?_, ?_, ?_, ?_, ?_, ?_⟩
  · rw [hrA]
    rfl
  · rw [hrA, hrB]
    intro hc
    have hmm : m2 = m1 := uuidOf_inj (Option.some.inj hc)
    rw [hgenA] at hm2g
    omega
  · have hws : ((runEntry w g kw1 true s1).wf.workflow_id).isSome = true := by
      rw [runEntry_true, (run_wf_ids w g kw1 s1).2.1]
      exact preRun_workflow_id_isSome w g kw1
    obtain ⟨x, hx⟩ := Option.isSome_iff_exists.mp hws
    rw [runEntry_true, (run_wf_ids _ _ kw2 s2).2.1,
      preRun_workflow_id_stable _ _ kw2 hx, hx]
  · have hss : ((runEntry w g kw1 true s1).wf.session_id).isSome = true := by
      rw [runEntry_true, (run_wf_ids w g kw1 s1).1]
      exact preRun_session_id_isSome w g kw1
    obtain ⟨x, hx⟩ := Option.isSome_iff_exists.mp hss
    rw [runEntry_true, (run_wf_ids _ _ kw2 s2).1,
      preRun_session_id_stable _ _ kw2 hx, hx]
  · intro w1 s x
    refine ⟨?_, ?_, ?_⟩
    · intro h1
      rw [load_workflow_id, h1, fill_some]
    · intro h1
      rw [load_user_id, h1, fill_some]
    · intro h1
      rw [load_session_id, h1, fill_some]
  · intro w1 s
    refine ⟨?_, ?_, ?_⟩
    · intro h1
      rw [load_workflow_id, h1, fill_none]
    · intro h1
      rw [load_user_id, h1, fill_none]
    · intro h1
      rw [load_session_id, h1, fill_none]

/-- Witness for C6 at a concrete instance: a set session id survives the
merge, and two consecutive runs keep it while producing distinct run ids. -/
theorem c6_ids_fresh_and_stable_witness :
    (runEntry { session_id := some "s" } 0 [] true SubResult.otherValue).wf.run_id.isSome
      = true ∧
    (load_workflow_session { session_id := some "s" }
      { session_id := some "t" }).session_id = some "s" := by
  have h := c6_ids_fresh_and_stable { session_id := some "s" } 0 [] []
    SubResult.otherValue SubResult.otherValue
  exact ⟨h.1, (h.2.2.2.2.1 { session_id := some "s" } { session_id := some "t" } "s").2.2 rfl⟩

/-- Claim C8: `load_session(force)` returns the cached session id with no
storage I/O on a cache hit with `force` off; otherwise, with storage
configured (and a session id set), a backend read is issued; on a miss a
write creates a fresh record, and if the record is still absent after the
write the call aborts with the raised error. -/
theorem c8_load_session (w : Workflow) (force : Bool) :
    (∀ (ws : WorkflowSession) (sid : String),
      w.workflow_session = some ws → force = false → w.session_id = some sid →
      ws.session_id = some sid →
      load_session w force = (Except.ok (some sid), w)) ∧
    (∀ (st : Storage) (sid : String), fastPath w force = false → w.storage = some st →
      w.session_id = some sid →
      ∃ st1, (load_session w force).2.storage = some st1 ∧ st1.reads = st.reads + 1) ∧
    (∀ (st : Storage) (sid : String), fastPath w force = false → w.storage = some st →
      w.session_id = some sid → lk st.sessions sid = none → st.failUpserts = true →
      (load_session w force).1
        = Except.error "Failed to create new WorkflowSession in storage") ∧
    (∀ (st : Storage) (sid : String), fastPath w force = false → w.storage = some st →
      w.session_id = some sid → lk st.sessions sid = none → st.failUpserts = false →
      (load_session w force).1 = Except.ok (some sid) ∧
      (load_session w force).2.workflow_session.isSome = true ∧
      (∃ st1, (load_session w force).2.storage = some st1 ∧
        st1.writes = st.writes + 1)) ∧
    (fastPath w force = false → w.storage = none →
      load_session w force = (Except.ok w.session_id, w)) := by
  refine ⟨?_, ?_, ?_, ?_, ?_⟩
  · intro ws sid hcache hforce hsid hws
    have hfp : fastPath w force = true := by
      rw [fastPath.eq_def, hcache, hsid, hforce]
      simp [hws]
    simp [load_session, hfp, hcache, hws]
  · intro st sid hfp hst hsid
    have hr : (read_from_storage w).2.storage = some { st with reads := st.reads + 1 } :=
      read_storage_some w hst hsid
    cases hws1 : (read_from_storage w).2.workflow_session with
    | some s0 =>
        refine ⟨{ st with reads := st.reads + 1 }, ?_, rfl⟩
        simp only [load_session, hfp, hst, hws1]
        simp [hr]
    | none =>
        have hw1st : (read_from_storage w).2.storage
            = some { st with reads := st.reads + 1 } := hr
        obtain ⟨st1, hst1, hwr1, hrd1⟩ := write_counters (read_from_storage w).2 hw1st
        cases hws2 : (write_to_storage (read_from_storage w).2).2.workflow_session with
        | none =>
            refine ⟨st1, ?_, ?_⟩
            · simp only [load_session, hfp, hst, hws1, hws2]
              simp [hst1]
            · rw [hrd1]
        | some s1 =>
            refine ⟨st1, ?_, ?_⟩
            · simp only [load_session, hfp, hst, hws1, hws2]
              simp [hst1]
            · rw [hrd1]
  · intro st sid hfp hst hsid hlk hfail
    have hws1 : (read_from_storage w).2.workflow_session = none :=
      read_ws_miss w hst hsid hlk
    have hw1st : (read_from_storage w).2.storage
        = some { st with reads := st.reads + 1 } := read_storage_some w hst hsid
    have hws2 : (write_to_storage (read_from_storage w).2).2.workflow_session = none := by
      rw [write_ws (read_from_storage w).2 hw1st]
      simp [hfail]
    simp only [load_session, hfp, hst, hws1, hws2]
    simp
  · intro st sid hfp hst hsid hlk hfail
    have hws1 : (read_from_storage w).2.workflow_session = none :=
      read_ws_miss w hst hsid hlk
    have hw1st : (read_from_storage w).2.storage
        = some { st with reads := st.reads + 1 } := read_storage_some w hst hsid
    have hws2 : (write_to_storage (read_from_storage w).2).2.workflow_session
        = some (get_workflow_session (read_from_storage w).2) := by
      rw [write_ws (read_from_storage w).2 hw1st]
      simp [hfail]
    have hsid2 : (write_to_storage (read_from_storage w).2).2.session_id = some sid := by
      rw [(write_preserves _).2.2.1]
      exact read_session_id_some w hsid
    obtain ⟨st1, hst1, hwr1, _⟩ := write_counters (read_from_storage w).2 hw1st
    refine ⟨?_, ?_, ⟨st1, ?_, ?_⟩⟩
    · simp only [load_session, hfp, hst, hws1, hws2]
      simp [hsid2]
    · simp only [load_session, hfp, hst, hws1, hws2]
      simp [hws2]
    · simp only [load_session, hfp, hst, hws1, hws2]
      simp [hst1]
    · rw [hwr1]
  · intro hfp hstn
    simp [load_session, hfp, hstn]

/-- Witness for C8: a cache hit returns immediately; a miss against an empty
store creates the record with one write. -/
theorem c8_load_session_witness :
    load_session { session_id := some "s", workflow_session := some { session_id := some "s" } } false
      = (Except.ok (some "s"), { session_id := some "s", workflow_session := some { session_id := some "s" } }) ∧
    (load_session { session_id := some "s", storage := some {} } false).1
      = Except.ok (some "s") := by
  constructor
  · exact (c8_load_session { session_id := some "s", workflow_session := some { session_id := some "s" } } false).1
      { session_id := some "s" } "s" rfl rfl rfl rfl
  · exact ((c8_load_session { session_id := some "s", storage := some {} } false).2.2.2.1
      {} "s" rfl rfl rfl rfl rfl).1

end Agno